import Mathlib

/-!
Shallow embedding of the motor-control core of `NEW_server_flask.py`
(ESC arming sequence, safety-reversal interlock, soft-start ramp, and the
HTTP command dispatcher), together with proofs of the specified properties.

Modelling conventions:
* Angles are rationals (`ℚ`); all arithmetic performed by the relevant code
  paths (clamping, the ramp step `(target - 120)/15` and its partial sums,
  the pulse-width conversion) is exact in binary floating point for the
  values the program uses, so exact rational arithmetic is faithful.
* The motor state dictionary `motor_states` is modelled as a total function
  `String → ℚ`; the Python dict holds exactly the keys "1".."4" and every
  read is guarded by a membership check on `motor_channels`, so reads of
  other keys never occur.
* Python `int()` truncates toward zero; `intTrunc` models it exactly.
* The file defines `set_motor_speed` from the second (effective) definition
  in the source (lines 181-272); the first definition at line 138 is
  shadowed by it and never runs.
-/

namespace ROV

/-- Calibration constant from line 54 of the source. -/
def ARMING_ANGLE : ℚ := 120

/-- Calibration constant from line 55 of the source. -/
def NEUTRAL_ANGLE : ℚ := 120

/-- Calibration constant from line 56 of the source. -/
def FORWARD_ANGLE : ℚ := 180

/-- Calibration constant from line 57 of the source. -/
def REVERSE_ANGLE : ℚ := 60

/-- The `motor_channels` map (lines 43-48): motor id to PCA9685 channel. -/
def motor_channels : List (String × ℕ) := [("1", 12), ("2", 13), ("3", 14), ("4", 15)]

/-- The valid motor identifiers (the keys of `motor_channels`). -/
def motorIds : List String := motor_channels.map Prod.fst

/-- The motor state store: motor id to last commanded angle. -/
def Store : Type := String → ℚ

/-- Point update of the store, i.e. `motor_states[m] = v`. -/
def updateStore (s : Store) (m : String) (v : ℚ) : Store :=
  fun k => if k = m then v else s k

/-- The initial store (line 60): every motor starts at `NEUTRAL_ANGLE`. -/
def initStore : Store := fun _ => NEUTRAL_ANGLE

/-- Python `int()` on a rational: truncation toward zero. -/
def intTrunc (q : ℚ) : ℤ := if q < 0 then -⌊-q⌋ else ⌊q⌋

/-- `angle_to_pwm` (lines 67-74): angle in [0,180] to a 16-bit duty value.
`pulse_us = 1000 + (angle/180)*1000`; `duty = int(pulse_us/20000 * 65535)`. -/
def angle_to_pwm (angle : ℚ) : ℤ :=
  let pulse_us : ℚ := 1000 + (angle / 180) * 1000
  intTrunc ((pulse_us / 20000) * 65535)

/-- The duty-cycle conversion as the specification words it (rounding
rather than truncation); used only to compare against `angle_to_pwm`. -/
def specDutyRound (angle : ℚ) : ℤ :=
  round (((1000 + (angle / 180) * 1000) / 20000) * 65535)

/-- Clamping of the target angle (line 203):
`max(REVERSE_ANGLE, min(FORWARD_ANGLE, target_angle))`. -/
def clampAngle (t : ℚ) : ℚ := max REVERSE_ANGLE (min FORWARD_ANGLE t)

/-- The ramp step size (line 237): `(clamped_target - start_angle) / steps`
with `start_angle = NEUTRAL_ANGLE` and `steps = 15`. -/
def rampStep (clamped : ℚ) : ℚ := (clamped - NEUTRAL_ANGLE) / 15

/-- The ramp loop body (lines 242-259), with `acc` playing the role of
`current_angle_in_ramp`: each iteration adds the step, clamps against the
target on the appropriate side, and emits the clamped value. -/
def rampLoop (clamped : ℚ) (acc : ℚ) : ℕ → List ℚ
  | 0 => []
  | n + 1 =>
    let acc' := acc + rampStep clamped
    let next := if rampStep clamped > 0 then min clamped acc' else max clamped acc'
    next :: rampLoop clamped acc' n

/-- The 15 intermediate angles written by the soft-start ramp. -/
def rampWrites (clamped : ℚ) : List ℚ := rampLoop clamped NEUTRAL_ANGLE 15

/-- Result of one `set_motor_speed` invocation: the angles passed to
`set_duty_cycle` in order, the values assigned into `motor_states` in
order, and the final store. -/
structure MotorResult where
  pwmWrites : List ℚ
  storeWrites : List ℚ
  store : Store

/-- `set_motor_speed` (lines 181-272, the effective definition).
Invalid motor id: return with no effect. Already at the (unclamped) target:
return with no effect. Otherwise clamp the target; if the current angle and
the clamped target are both non-neutral, write and store `NEUTRAL_ANGLE`
(reversal interlock) and treat the current angle as neutral; if the
(possibly updated) current angle is neutral and the clamped target is not,
run the 15-step soft-start ramp, writing and storing each value; finally
always write and store the clamped target. -/
def set_motor_speed (store : Store) (motor_num : String) (target_angle : ℚ) : MotorResult :=
  if motor_num ∈ motorIds then
    if store motor_num = target_angle then ⟨[], [], store⟩
    else
      let clamped := clampAngle target_angle
      let interlock := store motor_num ≠ NEUTRAL_ANGLE ∧ clamped ≠ NEUTRAL_ANGLE
      let w1 : List ℚ := if interlock then [NEUTRAL_ANGLE] else []
      let store1 := if interlock then updateStore store motor_num NEUTRAL_ANGLE else store
      let current1 := if interlock then NEUTRAL_ANGLE else store motor_num
      let ramp : List ℚ :=
        if current1 = NEUTRAL_ANGLE ∧ clamped ≠ NEUTRAL_ANGLE then rampWrites clamped else []
      let store2 := ramp.foldl (fun s v => updateStore s motor_num v) store1
      ⟨w1 ++ ramp ++ [clamped], w1 ++ ramp ++ [clamped], updateStore store2 motor_num clamped⟩
  else ⟨[], [], store⟩

/-- Result of `initialize_escs`: the values assigned into `motor_states`
in order, and the resulting store. -/
structure InitResult where
  storeWrites : List ℚ
  store : Store

/-- `initialize_escs` (lines 92-130). In simulation mode (`pca is None`,
modelled by `sim = true`) the function returns at line 96 without touching
the store. Against hardware it performs the three PWM arming steps (which
do not touch the store) and then sets the entry of every motor to
`NEUTRAL_ANGLE` (lines 126-128). -/
def initialize_escs (sim : Bool) (store : Store) : InitResult :=
  if sim then ⟨[], store⟩
  else
    ⟨motorIds.map (fun _ => NEUTRAL_ANGLE),
     motorIds.foldl (fun s mn => updateStore s mn NEUTRAL_ANGLE) store⟩

/-- Target-angle computation of the `/motor/<motor_num>` handler
(lines 331-350), given the lower-cased action. -/
def motorTarget (motor_num action : String) : Option ℚ :=
  if action = "forward" then
    if motor_num = "1" ∨ motor_num = "3" then some FORWARD_ANGLE
    else if motor_num = "2" ∨ motor_num = "4" then some REVERSE_ANGLE
    else none
  else if action = "stop" then some NEUTRAL_ANGLE
  else if action = "reverse" then
    if motor_num = "1" ∨ motor_num = "3" then some REVERSE_ANGLE
    else if motor_num = "2" ∨ motor_num = "4" then some FORWARD_ANGLE
    else none
  else none

/-- Python `str.lower()` as used on the action string (line 325):
character-wise lower-casing, which agrees with Python on the ASCII action
keywords the handler compares against. -/
def strLower (s : String) : String := ⟨s.data.map Char.toLower⟩

/-- The request body as the handler observes it: `get_json` (or the
subsequent `.get`) raising, a falsy body, or a JSON object whose
`"action"` field may be absent. -/
inductive ReqBody where
  | badJson : ReqBody
  | noData : ReqBody
  | jsonData (action : Option String) : ReqBody

/-- The HTTP response payload of the handler. -/
inductive Payload where
  | accepted (motor action : String) : Payload
  | error (msg : String) : Payload

/-- Result of one `motor_control` handler invocation: HTTP status, payload,
the `set_motor_speed` thread spawned (motor id and target angle), if any,
and the store as the handler leaves it (the handler itself never writes
the store; only the spawned sequencer does). -/
structure HandlerResult where
  status : ℕ
  payload : Payload
  spawn : Option (String × ℚ)
  store : Store

/-- `motor_control` (lines 314-363): validate the motor id, parse the body,
lower-case the action, map it to a target angle, and spawn
`set_motor_speed` asynchronously; each validation failure returns 400 with
an error payload and spawns nothing. -/
def motor_control (store : Store) (motor_num : String) (body : ReqBody) : HandlerResult :=
  if motor_num ∈ motorIds then
    match body with
    | .badJson => ⟨400, .error "Invalid JSON format", none, store⟩
    | .noData => ⟨400, .error "No JSON data provided", none, store⟩
    | .jsonData a =>
      let action := strLower (a.getD "")
      if action = "forward" ∨ action = "stop" ∨ action = "reverse" then
        ⟨200, .accepted motor_num action,
         (motorTarget motor_num action).map (fun t => (motor_num, t)), store⟩
      else ⟨400, .error "Invalid action", none, store⟩
  else ⟨400, .error "Invalid motor number", none, store⟩

/-- One value written on the side of the (clamped) target: strictly above
neutral when the target is above neutral, strictly below when below. -/
def onSide (clamped v : ℚ) : Prop :=
  (NEUTRAL_ANGLE < clamped ∧ NEUTRAL_ANGLE < v) ∨
  (clamped < NEUTRAL_ANGLE ∧ v < NEUTRAL_ANGLE)

/-- Concrete store used to exhibit the behaviour of `set_motor_speed` on an
out-of-range target: motor "1" running at `FORWARD_ANGLE`. -/
def storeAt180 : Store := fun k => if k = "1" then FORWARD_ANGLE else NEUTRAL_ANGLE

/-! ### Helper lemmas -/

lemma clampAngle_lb (t : ℚ) : REVERSE_ANGLE ≤ clampAngle t := le_max_left _ _

lemma clampAngle_ub (t : ℚ) : clampAngle t ≤ FORWARD_ANGLE := by
  refine max_le ?_ (min_le_left _ _)
  norm_num [REVERSE_ANGLE, FORWARD_ANGLE]

lemma clampAngle_eq_self {t : ℚ} (h1 : REVERSE_ANGLE ≤ t) (h2 : t ≤ FORWARD_ANGLE) :
    clampAngle t = t := by
  rw [clampAngle, min_eq_right h2, max_eq_right h1]

lemma rampStep_pos {c : ℚ} (h : NEUTRAL_ANGLE < c) : 0 < rampStep c := by
  rw [rampStep]
  exact div_pos (sub_pos.mpr h) (by norm_num)

lemma rampStep_neg {c : ℚ} (h : c < NEUTRAL_ANGLE) : rampStep c < 0 := by
  rw [rampStep]
  apply div_neg_of_neg_of_pos (by linarith) (by norm_num)

lemma rampLoop_mem_bounds {c : ℚ} (hc1 : REVERSE_ANGLE ≤ c) (hc2 : c ≤ FORWARD_ANGLE)
    (hne : c ≠ NEUTRAL_ANGLE) :
    ∀ (n : ℕ) (acc : ℚ), (0 < rampStep c → NEUTRAL_ANGLE ≤ acc) →
      (rampStep c < 0 → acc ≤ NEUTRAL_ANGLE) →
      ∀ v ∈ rampLoop c acc n, REVERSE_ANGLE ≤ v ∧ v ≤ FORWARD_ANGLE := by
  have h60 : (REVERSE_ANGLE : ℚ) ≤ NEUTRAL_ANGLE := by norm_num [REVERSE_ANGLE, NEUTRAL_ANGLE]
  have h180 : (NEUTRAL_ANGLE : ℚ) ≤ FORWARD_ANGLE := by norm_num [NEUTRAL_ANGLE, FORWARD_ANGLE]
  intro n
  induction n with
  | zero => intro acc _ _ v hv; simp [rampLoop] at hv
  | succ k ih =>
    intro acc hup hdown v hv
    rcases lt_trichotomy (rampStep c) 0 with hstep | hstep | hstep
    · have hacc : acc ≤ NEUTRAL_ANGLE := hdown hstep
      have hacc' : acc + rampStep c ≤ NEUTRAL_ANGLE := by linarith
      simp only [rampLoop, if_neg (not_lt.mpr (le_of_lt hstep)), List.mem_cons] at hv
      rcases hv with rfl | hv
      · exact ⟨le_trans hc1 (le_max_left _ _), max_le hc2 (le_trans hacc' h180)⟩
      · exact ih (acc + rampStep c) (fun h => absurd h (not_lt.mpr (le_of_lt hstep)))
          (fun _ => hacc') v hv
    · have : c = NEUTRAL_ANGLE := by
        rw [rampStep, div_eq_zero_iff] at hstep
        rcases hstep with h | h
        · linarith
        · norm_num at h
      exact absurd this hne
    · have hacc : NEUTRAL_ANGLE ≤ acc := hup hstep
      have hacc' : NEUTRAL_ANGLE ≤ acc + rampStep c := by linarith
      simp only [rampLoop, if_pos hstep, List.mem_cons] at hv
      rcases hv with rfl | hv
      · have hc120 : NEUTRAL_ANGLE < c := by
          by_contra hle
          push_neg at hle
          rcases eq_or_lt_of_le hle with he | hlt
          · exact hne he
          · exact absurd hstep (not_lt.mpr (le_of_lt (rampStep_neg hlt)))
        exact ⟨le_min (le_trans h60 (le_of_lt hc120)) (le_trans h60 hacc'),
          le_trans (min_le_left _ _) hc2⟩
      · exact ih (acc + rampStep c) (fun _ => hacc')
          (fun h => absurd h (not_lt.mpr (le_of_lt hstep))) v hv

lemma foldl_updateStore_ne {m k : String} (hk : k ≠ m) :
    ∀ (l : List ℚ) (s : Store), (l.foldl (fun s v => updateStore s m v) s) k = s k := by
  intro l
  induction l with
  | nil => intro s; rfl
  | cons v t ih =>
    intro s
    rw [List.foldl_cons, ih]
    simp [updateStore, hk]

lemma foldl_updateStore_self (m k : String) :
    ∀ (l : List ℚ) (s : Store),
      (l.foldl (fun s v => updateStore s m v) s) k = s k ∨
      (l.foldl (fun s v => updateStore s m v) s) k ∈ l := by
  intro l
  induction l with
  | nil => intro s; exact Or.inl rfl
  | cons v t ih =>
    intro s
    rw [List.foldl_cons]
    rcases ih (updateStore s m v) with h | h
    · rw [h, updateStore]
      by_cases hk : k = m
      · simp [hk]
      · simp [hk]
    · exact Or.inr (List.mem_cons_of_mem _ h)

lemma foldl_initStore_val (v : ℚ) (k : String) :
    ∀ (l : List String) (s : Store),
      (l.foldl (fun s mn => updateStore s mn v) s) k = v ∨
      (l.foldl (fun s mn => updateStore s mn v) s) k = s k := by
  intro l
  induction l with
  | nil => intro s; exact Or.inr rfl
  | cons mn t ih =>
    intro s
    rw [List.foldl_cons]
    rcases ih (updateStore s mn v) with h | h
    · exact Or.inl h
    · rw [h, updateStore]
      by_cases hk : k = mn
      · simp [hk]
      · simp [hk]

lemma set_motor_speed_noop {store : Store} {m : String} {t : ℚ}
    (h : store m = t) : set_motor_speed store m t = ⟨[], [], store⟩ := by
  by_cases hm : m ∈ motorIds
  · simp [set_motor_speed, hm, h]
  · simp [set_motor_speed, hm]

lemma set_motor_speed_pwm_interlock {store : Store} {m : String} {t : ℚ}
    (hm : m ∈ motorIds) (hne : store m ≠ t) (hc : store m ≠ NEUTRAL_ANGLE)
    (ht : clampAngle t ≠ NEUTRAL_ANGLE) :
    (set_motor_speed store m t).pwmWrites =
      NEUTRAL_ANGLE :: (rampWrites (clampAngle t) ++ [clampAngle t]) := by
  simp [set_motor_speed, hm, hne, hc, ht]

lemma set_motor_speed_pwm_ramp {store : Store} {m : String} {t : ℚ}
    (hm : m ∈ motorIds) (hne : store m ≠ t) (hc : store m = NEUTRAL_ANGLE)
    (ht : clampAngle t ≠ NEUTRAL_ANGLE) :
    (set_motor_speed store m t).pwmWrites = rampWrites (clampAngle t) ++ [clampAngle t] := by
  have hnt : NEUTRAL_ANGLE ≠ t := hc ▸ hne
  simp [set_motor_speed, hm, hne, hc, ht, hnt]

lemma set_motor_speed_final {store : Store} {m : String} {t : ℚ}
    (hm : m ∈ motorIds) (hne : store m ≠ t) :
    (set_motor_speed store m t).store m = clampAngle t := by
  simp [set_motor_speed, hm, hne, updateStore]

lemma set_motor_speed_store_other {store : Store} {m k : String} {t : ℚ}
    (hk : k ≠ m) : (set_motor_speed store m t).store k = store k := by
  by_cases hm : m ∈ motorIds
  · by_cases hne : store m = t
    · rw [set_motor_speed_noop hne]
    · simp only [set_motor_speed, if_pos hm, if_neg hne]
      simp only [updateStore, if_neg hk]
      rw [foldl_updateStore_ne hk]
      by_cases hi : store m ≠ NEUTRAL_ANGLE ∧ clampAngle t ≠ NEUTRAL_ANGLE
      · simp [if_pos hi, updateStore, hk]
      · simp [if_neg hi]
  · simp [set_motor_speed, hm]

lemma angle_to_pwm_eq_floor {a : ℚ} (h0 : 0 ≤ a) :
    angle_to_pwm a = ⌊((1000 + (a / 180) * 1000) / 20000) * 65535⌋ := by
  have hpos : (0:ℚ) ≤ ((1000 + (a / 180) * 1000) / 20000) * 65535 := by
    have ha : (0:ℚ) ≤ a / 180 := by positivity
    nlinarith
  simp only [angle_to_pwm, intTrunc]
  rw [if_neg (not_lt.mpr hpos)]

lemma set_motor_speed_storeWrites_mem {store : Store} {m : String} {t : ℚ} {v : ℚ}
    (hv : v ∈ (set_motor_speed store m t).storeWrites) :
    v = NEUTRAL_ANGLE ∨
    (clampAngle t ≠ NEUTRAL_ANGLE ∧ v ∈ rampWrites (clampAngle t)) ∨
    v = clampAngle t := by
  by_cases hm : m ∈ motorIds
  · by_cases hne : store m = t
    · rw [set_motor_speed_noop hne] at hv
      simp at hv
    · simp only [set_motor_speed, if_pos hm, if_neg hne] at hv
      by_cases hi : store m ≠ NEUTRAL_ANGLE ∧ clampAngle t ≠ NEUTRAL_ANGLE
      · simp only [if_pos hi] at hv
        rw [if_pos ⟨trivial, hi.2⟩] at hv
        simp only [List.singleton_append, List.mem_cons, List.mem_append,
          List.mem_singleton] at hv
        tauto
      · by_cases hr : store m = NEUTRAL_ANGLE ∧ clampAngle t ≠ NEUTRAL_ANGLE
        · simp only [if_neg hi, if_pos hr, List.nil_append, List.mem_append,
            List.mem_singleton] at hv
          tauto
        · simp only [if_neg hi, if_neg hr, List.nil_append, List.mem_singleton] at hv
          exact Or.inr (Or.inr hv)
  · simp [set_motor_speed, hm] at hv

/-! ### Claim theorems -/

/-- C1 (reversal interlock): for every valid motor id and requested target,
if the current stored angle is not `NEUTRAL_ANGLE` and the clamped target is
not `NEUTRAL_ANGLE`, then every PWM write on the side of the new target is
strictly preceded in the write sequence of that `set_motor_speed`
invocation by a write of `NEUTRAL_ANGLE`. -/
theorem c1_reversal_interlock (store : Store) (m : String) (t : ℚ)
    (hm : m ∈ motorIds) (hc : store m ≠ NEUTRAL_ANGLE)
    (ht : clampAngle t ≠ NEUTRAL_ANGLE) :
    ∀ (j : ℕ) (hj : j < (set_motor_speed store m t).pwmWrites.length),
      onSide (clampAngle t) ((set_motor_speed store m t).pwmWrites.get ⟨j, hj⟩) →
      ∃ (i : ℕ) (hi : i < (set_motor_speed store m t).pwmWrites.length),
        i < j ∧ (set_motor_speed store m t).pwmWrites.get ⟨i, hi⟩ = NEUTRAL_ANGLE := by
  by_cases hne : store m = t
  · rw [set_motor_speed_noop hne]
    intro j hj
    simp at hj
  · rw [set_motor_speed_pwm_interlock hm hne hc ht]
    intro j hj hside
    cases j with
    | zero =>
      have h0 : (NEUTRAL_ANGLE :: (rampWrites (clampAngle t) ++ [clampAngle t])).get
          ⟨0, hj⟩ = NEUTRAL_ANGLE := rfl
      rw [h0] at hside
      rcases hside with ⟨_, h⟩ | ⟨_, h⟩ <;> exact absurd h (lt_irrefl _)
    | succ k =>
      refine ⟨0, ?_, Nat.succ_pos _, rfl⟩
      simp

/-- C1 witness: motor "1" running at 180 commanded to 60. -/
theorem c1_reversal_interlock_witness :
    ("1" ∈ motorIds ∧ storeAt180 "1" ≠ NEUTRAL_ANGLE ∧
      clampAngle REVERSE_ANGLE ≠ NEUTRAL_ANGLE) ∧
    (∀ (j : ℕ) (hj : j < (set_motor_speed storeAt180 "1" REVERSE_ANGLE).pwmWrites.length),
      onSide (clampAngle REVERSE_ANGLE)
        ((set_motor_speed storeAt180 "1" REVERSE_ANGLE).pwmWrites.get ⟨j, hj⟩) →
      ∃ (i : ℕ) (hi : i < (set_motor_speed storeAt180 "1" REVERSE_ANGLE).pwmWrites.length),
        i < j ∧
          (set_motor_speed storeAt180 "1" REVERSE_ANGLE).pwmWrites.get ⟨i, hi⟩ =
            NEUTRAL_ANGLE) :=
  ⟨⟨by decide, by decide, by decide⟩,
   c1_reversal_interlock storeAt180 "1" REVERSE_ANGLE (by decide) (by decide) (by decide)⟩

/-- C2 (final-commit invariant): for every valid motor id and every target
already in [REVERSE_ANGLE, FORWARD_ANGLE], after `set_motor_speed` completes
the stored angle of that motor equals the target exactly. -/
theorem c2_final_commit (store : Store) (m : String) (t : ℚ)
    (hm : m ∈ motorIds) (h1 : REVERSE_ANGLE ≤ t) (h2 : t ≤ FORWARD_ANGLE) :
    (set_motor_speed store m t).store m = t := by
  by_cases hne : store m = t
  · rw [set_motor_speed_noop hne]
    exact hne
  · rw [set_motor_speed_final hm hne, clampAngle_eq_self h1 h2]

/-- C2 witness: motor "1" at neutral commanded to 180 ends stored at 180. -/
theorem c2_final_commit_witness :
    ("1" ∈ motorIds ∧ REVERSE_ANGLE ≤ FORWARD_ANGLE ∧ FORWARD_ANGLE ≤ FORWARD_ANGLE) ∧
    (set_motor_speed initStore "1" FORWARD_ANGLE).store "1" = FORWARD_ANGLE :=
  ⟨⟨by decide, by decide, le_refl _⟩,
   c2_final_commit initStore "1" FORWARD_ANGLE (by decide) (by decide) (le_refl _)⟩

/-- C3 (ramp shape): a motor stored at `NEUTRAL_ANGLE` commanded to
`FORWARD_ANGLE` produces exactly 15 intermediate PWM writes before the final
commit, monotonically non-decreasing, each at most 180, the 15th equal
to 180. -/
theorem c3_ramp_shape (store : Store) (m : String)
    (hm : m ∈ motorIds) (h : store m = NEUTRAL_ANGLE) :
    (set_motor_speed store m FORWARD_ANGLE).pwmWrites.dropLast.length = 15 ∧
    (set_motor_speed store m FORWARD_ANGLE).pwmWrites.dropLast.Chain' (· ≤ ·) ∧
    (∀ v ∈ (set_motor_speed store m FORWARD_ANGLE).pwmWrites.dropLast,
      v ≤ FORWARD_ANGLE) ∧
    (set_motor_speed store m FORWARD_ANGLE).pwmWrites.dropLast.getLast? =
      some FORWARD_ANGLE := by
  have hne : store m ≠ FORWARD_ANGLE := by
    rw [h]; norm_num [NEUTRAL_ANGLE, FORWARD_ANGLE]
  have ht : clampAngle FORWARD_ANGLE ≠ NEUTRAL_ANGLE := by
    norm_num [clampAngle, REVERSE_ANGLE, FORWARD_ANGLE, NEUTRAL_ANGLE]
  have hcl : clampAngle FORWARD_ANGLE = FORWARD_ANGLE :=
    clampAngle_eq_self (by norm_num [REVERSE_ANGLE, FORWARD_ANGLE]) le_rfl
  have hdrop : ∀ (l : List ℚ) (a : ℚ), (l ++ [a]).dropLast = l := by
    intro l a; simp
  have hlist : rampWrites FORWARD_ANGLE =
      [124, 128, 132, 136, 140, 144, 148, 152, 156, 160, 164, 168, 172, 176, 180] := by
    norm_num [rampWrites, rampLoop, rampStep, NEUTRAL_ANGLE, FORWARD_ANGLE]
  rw [set_motor_speed_pwm_ramp hm hne h ht, hcl, hdrop, hlist]
  refine ⟨rfl, ?_, ?_, rfl⟩
  · norm_num [List.chain'_cons, FORWARD_ANGLE]
  · intro v hv
    fin_cases hv <;> norm_num [FORWARD_ANGLE]

/-- C3 witness: the ramp shape at the initial store, motor "1". -/
theorem c3_ramp_shape_witness :
    ("1" ∈ motorIds ∧ initStore "1" = NEUTRAL_ANGLE) ∧
    ((set_motor_speed initStore "1" FORWARD_ANGLE).pwmWrites.dropLast.length = 15 ∧
     (set_motor_speed initStore "1" FORWARD_ANGLE).pwmWrites.dropLast.Chain' (· ≤ ·) ∧
     (∀ v ∈ (set_motor_speed initStore "1" FORWARD_ANGLE).pwmWrites.dropLast,
       v ≤ FORWARD_ANGLE) ∧
     (set_motor_speed initStore "1" FORWARD_ANGLE).pwmWrites.dropLast.getLast? =
       some FORWARD_ANGLE) :=
  ⟨⟨by decide, rfl⟩, c3_ramp_shape initStore "1" (by decide) rfl⟩

/-- C4 counterexample: the code compares the current angle with the target
BEFORE clamping (line 196), so with motor "1" stored at 180 and requested
target 200 (whose clamp is 180, equal to the current angle) the invocation
is not a no-op: PWM writes occur and `NEUTRAL_ANGLE` is written into the
store mid-invocation. -/
theorem c4_counterexample :
    ("1" ∈ motorIds ∧ storeAt180 "1" = clampAngle 200) ∧
    (set_motor_speed storeAt180 "1" 200).pwmWrites ≠ [] ∧
    NEUTRAL_ANGLE ∈ (set_motor_speed storeAt180 "1" 200).storeWrites := by
  refine ⟨⟨by decide, by decide⟩, by decide, by decide⟩

/-- C4 amended: if the current stored angle equals the requested target
angle as given (the comparison the code actually performs, before any
clamping), then `set_motor_speed` performs no PWM write, records no store
write, and leaves the whole store unchanged. For targets already inside
[REVERSE_ANGLE, FORWARD_ANGLE] the clamp is the identity, so the original
claim holds for them. -/
theorem c4_noop_unclamped (store : Store) (m : String) (t : ℚ)
    (hm : m ∈ motorIds) (h : store m = t) :
    (set_motor_speed store m t).pwmWrites = [] ∧
    (set_motor_speed store m t).storeWrites = [] ∧
    ∀ k, (set_motor_speed store m t).store k = store k := by
  rw [set_motor_speed_noop h]
  exact ⟨rfl, rfl, fun _ => rfl⟩

/-- C4 witness: motor "1" already at neutral commanded to neutral. -/
theorem c4_noop_unclamped_witness :
    ("1" ∈ motorIds ∧ initStore "1" = NEUTRAL_ANGLE) ∧
    ((set_motor_speed initStore "1" NEUTRAL_ANGLE).pwmWrites = [] ∧
     (set_motor_speed initStore "1" NEUTRAL_ANGLE).storeWrites = [] ∧
     ∀ k, (set_motor_speed initStore "1" NEUTRAL_ANGLE).store k = initStore k) :=
  ⟨⟨by decide, rfl⟩, c4_noop_unclamped initStore "1" NEUTRAL_ANGLE (by decide) rfl⟩

/-- C5 counterexample: `angle_to_pwm` truncates (Python `int()`) rather
than rounds. At angle 0 the exact value is 3276.75: the code produces 3276
while the rounding the claim states produces 3277. -/
theorem c5_counterexample :
    angle_to_pwm 0 = 3276 ∧ specDutyRound 0 = 3277 ∧
    angle_to_pwm 0 ≠ specDutyRound 0 := by
  refine ⟨?_, ?_, ?_⟩
  · norm_num [angle_to_pwm, intTrunc]
  · norm_num [specDutyRound, round_eq]
  · norm_num [angle_to_pwm, intTrunc, specDutyRound, round_eq]

/-- C5 amended: for every angle in [0,180] the duty value equals the FLOOR
(truncation) of ((1000 + angle/180 x 1000) / 20000) x 65535, i.e. the
linear pulse-width map scaled to 16 bits with truncation toward zero, not
rounding. -/
theorem c5_duty_floor (a : ℚ) (h0 : 0 ≤ a) (h1 : a ≤ 180) :
    angle_to_pwm a = ⌊((1000 + (a / 180) * 1000) / 20000) * 65535⌋ :=
  angle_to_pwm_eq_floor h0

/-- C5 witness: the floor form evaluated at angle 0. -/
theorem c5_duty_floor_witness :
    ((0:ℚ) ≤ 0 ∧ (0:ℚ) ≤ 180) ∧
    angle_to_pwm 0 = ⌊((1000 + ((0:ℚ) / 180) * 1000) / 20000) * 65535⌋ :=
  ⟨⟨le_refl 0, by norm_num⟩, c5_duty_floor 0 (le_refl 0) (by norm_num)⟩

/-- C6 (arming postcondition): after `initialize_escs` completes from the
process start state, whether in simulation mode (early return at line 96)
or against hardware, every motor entry of the state store equals
`NEUTRAL_ANGLE`; in simulation mode this rests on the store being
initialised to `NEUTRAL_ANGLE` at line 60 and never touched. -/
theorem c6_arming (sim : Bool) (m : String) (hm : m ∈ motorIds) :
    (initialize_escs sim initStore).store m = NEUTRAL_ANGLE := by
  cases sim with
  | true => simp [initialize_escs, initStore]
  | false =>
    rcases foldl_initStore_val NEUTRAL_ANGLE m motorIds initStore with h | h
    · simpa [initialize_escs] using h
    · simp only [initStore] at h
      simpa [initialize_escs] using h

/-- C6 witness: motor "1" ends at neutral in both modes. -/
theorem c6_arming_witness :
    ("1" ∈ motorIds) ∧
    (initialize_escs true initStore).store "1" = NEUTRAL_ANGLE ∧
    (initialize_escs false initStore).store "1" = NEUTRAL_ANGLE :=
  ⟨by decide, c6_arming true "1" (by decide), c6_arming false "1" (by decide)⟩

/-- C7 (polarity inversion): a POST to motor "2" with action "forward"
spawns a transition to `REVERSE_ANGLE` (60), and once that
`set_motor_speed` invocation completes from a neutral state the stored
angle of motor "2" is 60; "forward" on motors "1" and "3" targets
`FORWARD_ANGLE` (180); "stop" targets `NEUTRAL_ANGLE` for every motor. -/
theorem c7_polarity (store : Store) (h2 : store "2" = NEUTRAL_ANGLE) :
    (motor_control store "2" (ReqBody.jsonData (some "forward"))).spawn =
      some ("2", REVERSE_ANGLE) ∧
    (set_motor_speed store "2" REVERSE_ANGLE).store "2" = REVERSE_ANGLE ∧
    motorTarget "1" "forward" = some FORWARD_ANGLE ∧
    motorTarget "3" "forward" = some FORWARD_ANGLE ∧
    ∀ m ∈ motorIds, motorTarget m "stop" = some NEUTRAL_ANGLE := by
  have hne : store "2" ≠ REVERSE_ANGLE := by
    rw [h2]; norm_num [NEUTRAL_ANGLE, REVERSE_ANGLE]
  have hm2 : "2" ∈ motorIds := by decide
  refine ⟨?_, ?_, by decide, by decide, ?_⟩
  · have hl : strLower "forward" = "forward" := by decide
    simp [motor_control, motorTarget, motorIds, motor_channels, hl]
  · rw [set_motor_speed_final hm2 hne]
    exact clampAngle_eq_self le_rfl (by norm_num [REVERSE_ANGLE, FORWARD_ANGLE])
  · intro m hm
    fin_cases hm <;> decide

/-- C7 witness: evaluated at the initial store. -/
theorem c7_polarity_witness :
    (initStore "2" = NEUTRAL_ANGLE) ∧
    ((motor_control initStore "2" (ReqBody.jsonData (some "forward"))).spawn =
       some ("2", REVERSE_ANGLE) ∧
     (set_motor_speed initStore "2" REVERSE_ANGLE).store "2" = REVERSE_ANGLE ∧
     motorTarget "1" "forward" = some FORWARD_ANGLE ∧
     motorTarget "3" "forward" = some FORWARD_ANGLE ∧
     ∀ m ∈ motorIds, motorTarget m "stop" = some NEUTRAL_ANGLE) :=
  ⟨rfl, c7_polarity initStore rfl⟩

/-- C8 (validation rejection): for a motor id outside the four valid ones,
or a request whose JSON is invalid or missing, or whose (lower-cased)
action is none of forward, reverse, stop, the handler returns status 400
with an error payload, spawns no sequencer invocation (hence no PWM
write), and leaves the store untouched. -/
theorem c8_validation (store : Store) (m : String) (body : ReqBody)
    (h : m ∉ motorIds ∨ body = ReqBody.badJson ∨ body = ReqBody.noData ∨
      ∃ a, body = ReqBody.jsonData a ∧ strLower (a.getD "") ≠ "forward" ∧
        strLower (a.getD "") ≠ "stop" ∧ strLower (a.getD "") ≠ "reverse") :
    (motor_control store m body).status = 400 ∧
    (∃ msg, (motor_control store m body).payload = Payload.error msg) ∧
    (motor_control store m body).spawn = none ∧
    ∀ k, (motor_control store m body).store k = store k := by
  by_cases hm : m ∈ motorIds
  · rcases h with h | rfl | rfl | ⟨a, rfl, h1, h2, h3⟩
    · exact absurd hm h
    · exact ⟨by simp [motor_control, hm], ⟨"Invalid JSON format", by simp [motor_control, hm]⟩,
        by simp [motor_control, hm], fun k => by simp [motor_control, hm]⟩
    · exact ⟨by simp [motor_control, hm], ⟨"No JSON data provided", by simp [motor_control, hm]⟩,
        by simp [motor_control, hm], fun k => by simp [motor_control, hm]⟩
    · exact ⟨by simp [motor_control, hm, h1, h2, h3],
        ⟨"Invalid action", by simp [motor_control, hm, h1, h2, h3]⟩,
        by simp [motor_control, hm, h1, h2, h3],
        fun k => by simp [motor_control, hm, h1, h2, h3]⟩
  · exact ⟨by simp [motor_control, hm], ⟨"Invalid motor number", by simp [motor_control, hm]⟩,
      by simp [motor_control, hm], fun k => by simp [motor_control, hm]⟩

/-- C8 witness: POST /motor/9 with a well-formed body is rejected. -/
theorem c8_validation_witness :
    ("9" ∉ motorIds) ∧
    ((motor_control initStore "9" (ReqBody.jsonData (some "forward"))).status = 400 ∧
     (∃ msg, (motor_control initStore "9" (ReqBody.jsonData (some "forward"))).payload =
       Payload.error msg) ∧
     (motor_control initStore "9" (ReqBody.jsonData (some "forward"))).spawn = none ∧
     ∀ k, (motor_control initStore "9" (ReqBody.jsonData (some "forward"))).store k =
       initStore k) :=
  ⟨by decide,
   c8_validation initStore "9" (ReqBody.jsonData (some "forward")) (Or.inl (by decide))⟩

/-- C9 (angle-range invariant): from a store with every motor in
[REVERSE_ANGLE, FORWARD_ANGLE], every value `set_motor_speed` or
`initialize_escs` writes into the state store lies in
[REVERSE_ANGLE, FORWARD_ANGLE], and the store each leaves behind still has
every motor in that interval. -/
theorem c9_angle_range (store : Store)
    (hrange : ∀ m ∈ motorIds, REVERSE_ANGLE ≤ store m ∧ store m ≤ FORWARD_ANGLE) :
    (∀ (m : String) (t : ℚ), ∀ v ∈ (set_motor_speed store m t).storeWrites,
      REVERSE_ANGLE ≤ v ∧ v ≤ FORWARD_ANGLE) ∧
    (∀ (m : String) (t : ℚ), ∀ m' ∈ motorIds,
      REVERSE_ANGLE ≤ (set_motor_speed store m t).store m' ∧
      (set_motor_speed store m t).store m' ≤ FORWARD_ANGLE) ∧
    (∀ sim : Bool, ∀ v ∈ (initialize_escs sim store).storeWrites,
      REVERSE_ANGLE ≤ v ∧ v ≤ FORWARD_ANGLE) ∧
    (∀ sim : Bool, ∀ m' ∈ motorIds,
      REVERSE_ANGLE ≤ (initialize_escs sim store).store m' ∧
      (initialize_escs sim store).store m' ≤ FORWARD_ANGLE) := by
  have hN : REVERSE_ANGLE ≤ NEUTRAL_ANGLE ∧ NEUTRAL_ANGLE ≤ FORWARD_ANGLE := by
    norm_num [REVERSE_ANGLE, NEUTRAL_ANGLE, FORWARD_ANGLE]
  refine ⟨?_, ?_, ?_, ?_⟩
  · intro m t v hv
    rcases set_motor_speed_storeWrites_mem hv with rfl | ⟨ht, hv⟩ | rfl
    · exact hN
    · rw [rampWrites] at hv
      exact rampLoop_mem_bounds (clampAngle_lb t) (clampAngle_ub t) ht 15 NEUTRAL_ANGLE
        (fun _ => le_rfl) (fun _ => le_rfl) v hv
    · exact ⟨clampAngle_lb t, clampAngle_ub t⟩
  · intro m t m' hm'
    by_cases hk : m' = m
    · subst hk
      by_cases hmm : m' ∈ motorIds
      · by_cases hne : store m' = t
        · rw [set_motor_speed_noop hne]
          exact hrange m' hm'
        · rw [set_motor_speed_final hmm hne]
          exact ⟨clampAngle_lb t, clampAngle_ub t⟩
      · simp only [set_motor_speed, if_neg hmm]
        exact hrange m' hm'
    · rw [set_motor_speed_store_other hk]
      exact hrange m' hm'
  · intro sim v hv
    cases sim with
    | true => simp [initialize_escs] at hv
    | false =>
      simp only [initialize_escs, Bool.false_eq_true, if_false, List.mem_map] at hv
      obtain ⟨_, _, rfl⟩ := hv
      exact hN
  · intro sim m' hm'
    cases sim with
    | true =>
      simp only [initialize_escs, if_true]
      exact hrange m' hm'
    | false =>
      simp only [initialize_escs, Bool.false_eq_true, if_false]
      rcases foldl_initStore_val NEUTRAL_ANGLE m' motorIds store with h | h
      · rw [h]; exact hN
      · rw [h]; exact hrange m' hm'

/-- C9 witness: the initial store satisfies the range hypothesis and the
conclusion at it. -/
theorem c9_angle_range_witness :
    (∀ m ∈ motorIds, REVERSE_ANGLE ≤ initStore m ∧ initStore m ≤ FORWARD_ANGLE) ∧
    ((∀ (m : String) (t : ℚ), ∀ v ∈ (set_motor_speed initStore m t).storeWrites,
       REVERSE_ANGLE ≤ v ∧ v ≤ FORWARD_ANGLE) ∧
     (∀ (m : String) (t : ℚ), ∀ m' ∈ motorIds,
       REVERSE_ANGLE ≤ (set_motor_speed initStore m t).store m' ∧
       (set_motor_speed initStore m t).store m' ≤ FORWARD_ANGLE) ∧
     (∀ sim : Bool, ∀ v ∈ (initialize_escs sim initStore).storeWrites,
       REVERSE_ANGLE ≤ v ∧ v ≤ FORWARD_ANGLE) ∧
     (∀ sim : Bool, ∀ m' ∈ motorIds,
       REVERSE_ANGLE ≤ (initialize_escs sim initStore).store m' ∧
       (initialize_escs sim initStore).store m' ≤ FORWARD_ANGLE)) :=
  ⟨by decide, c9_angle_range initStore (by decide)⟩

/-- C10 (commanded duty never the disarm signal): for angles in [0,180]
the duty value lies in [3276, 6553], is strictly positive, and is
monotonically non-decreasing in the angle; in particular no angle-based
command can produce the zero-duty disarm signal. -/
theorem c10_duty_bounds (a b : ℚ) (h0 : 0 ≤ a) (hab : a ≤ b) (hb : b ≤ 180) :
    3276 ≤ angle_to_pwm a ∧ angle_to_pwm a ≤ 6553 ∧ 0 < angle_to_pwm a ∧
    angle_to_pwm a ≤ angle_to_pwm b := by
  have h0b : (0:ℚ) ≤ b := le_trans h0 hab
  have hfa := angle_to_pwm_eq_floor h0
  have hfb := angle_to_pwm_eq_floor h0b
  have hlb : (3276 : ℤ) ≤ angle_to_pwm a := by
    rw [hfa, Int.le_floor]
    push_cast
    nlinarith
  have hub : angle_to_pwm a ≤ 6553 := by
    have hlt : angle_to_pwm a < 6554 := by
      rw [hfa, Int.floor_lt]
      push_cast
      nlinarith [le_trans hab hb]
    omega
  refine ⟨hlb, hub, by omega, ?_⟩
  rw [hfa, hfb]
  apply Int.floor_le_floor
  nlinarith

/-- C10 witness: the bounds at the interval endpoints 0 and 180. -/
theorem c10_duty_bounds_witness :
    ((0:ℚ) ≤ 0 ∧ (0:ℚ) ≤ 180 ∧ (180:ℚ) ≤ 180) ∧
    (3276 ≤ angle_to_pwm 0 ∧ angle_to_pwm 0 ≤ 6553 ∧ 0 < angle_to_pwm 0 ∧
     angle_to_pwm 0 ≤ angle_to_pwm 180) :=
  ⟨⟨le_refl 0, by norm_num, le_refl 180⟩,
   c10_duty_bounds 0 180 (le_refl 0) (by norm_num) (le_refl 180)⟩

end ROV
